import Mathlib

/-!
Verification of the diagnostics orchestration pipeline of the
fabric8-analytics language server (`src/server.ts`).

The source under `src/` is a single file, `server.ts`.  Its collaborators
(the per-ecosystem collectors, the cache factory, the `DiagnosticsPipeline`
and `SecurityEngine` consumers) live outside `src/`; they are modelled here
abstractly at their interface boundary, following the spec where the spec
pins their contract (noted at each definition).

The shallow embedding translates:
  * `getCAmsg` (server.ts:155-172), the summary notification builder;
  * `slicePayload` (server.ts:246-255), the batch slicer;
  * `regexVersion` (server.ts:257) and the version validity filter;
  * `sendDiagnostics` (server.ts:258-314), the analysis cycle, as a pure
    function from an environment (collector result, cache contents, per-batch
    fetch results) and a batch settle order to the trace of connection events;
  * the debounce handlers (server.ts:333-346, 371-373) as a timer state
    machine;
  * `onCodeAction` (server.ts:352-369).
-/

/-- Anchor position of a diagnostic (`range.start` of an LSP diagnostic). -/
structure Pos where
  line : Nat
  character : Nat
deriving DecidableEq, Repr

/-- An LSP diagnostic as far as the orchestration code inspects it:
`onCodeAction` reads `range.start.line`, `range.start.character` and
`source`; everything else is opaque payload (kept as a string). -/
structure Diagnostic where
  start : Pos
  source : String
  payload : String
deriving DecidableEq, Repr

/-- One field of a collected dependency: the collector contract
(spec section 6) gives each of `name` and `version` as `{value, position}`. -/
structure DepField where
  value : String
  position : Pos
deriving DecidableEq, Repr

/-- A dependency as returned by a collector: `{name:{value,position},
version:{value,position}}`. -/
structure Dep where
  name : DepField
  version : DepField
deriving DecidableEq, Repr

/-- An item of the request payload built at server.ts:300:
`{package: d.name.value, version: d.version.value}`. -/
structure PkgVer where
  package : String
  version : String
deriving DecidableEq, Repr

/-- One element of the sliced request data (server.ts:249-252):
`{"ecosystem": ecosystem, "package_versions": payload.slice(i, i+batchSize)}`. -/
structure RequestBatch where
  ecosystem : String
  package_versions : List PkgVer
deriving DecidableEq, Repr

/-- `TotalCount` (server.ts:222-226): running counts for one cycle. -/
structure TotalCount where
  vulnerabilityCount : Nat := 0
  advisoryCount : Nat := 0
  exploitCount : Nat := 0
deriving DecidableEq, Repr

/-- Pointwise addition of counts, as produced by the `+=` accumulation in
`runPipeline` (server.ts:236-238). -/
def TotalCount.add (a b : TotalCount) : TotalCount :=
  ⟨a.vulnerabilityCount + b.vulnerabilityCount,
   a.advisoryCount + b.advisoryCount,
   a.exploitCount + b.exploitCount⟩

/-- `vulStr` (server.ts:159): singular/plural of "Vulnerability". -/
def vulStr (count : Nat) : String :=
  if count == 1 then "Vulnerability" else "Vulnerabilities"

/-- `advStr` (server.ts:160): singular/plural of "Advisory". -/
def advStr (count : Nat) : String :=
  if count == 1 then "Advisory" else "Advisories"

/-- `getCAmsg` (server.ts:155-172).  The JavaScript builds
`knownVulnMsg = !count || string` (the literal `true` when the count is 0,
the clause otherwise) and then `[knownVulnMsg, advisoryMsg].filter(x => x !==
true).join(' and ')`; the `true`/string union is rendered here as
`Option String` and the filter-join as `intercalate` over `filterMap id`.
The final `summaryMsg ? 'flagged ' + summaryMsg : '...'` tests JavaScript
string truthiness, i.e. non-emptiness. -/
def getCAmsg (deps : List Dep) (diagnostics : List Diagnostic)
    (totalCount : TotalCount) : String :=
  let depsWord := if deps.length == 1 then "dependency" else "dependencies"
  let msg := "Scanned " ++ toString deps.length ++ " " ++ depsWord ++ ", "
  if diagnostics.length > 0 then
    let knownVulnMsg : Option String :=
      if totalCount.vulnerabilityCount == 0 then none
      else some (toString totalCount.vulnerabilityCount ++ " Known Security "
        ++ vulStr totalCount.vulnerabilityCount)
    let advisoryMsg : Option String :=
      if totalCount.advisoryCount == 0 then none
      else some (toString totalCount.advisoryCount ++ " Security "
        ++ advStr totalCount.advisoryCount)
    let summaryMsg0 := String.intercalate " and "
      ([knownVulnMsg, advisoryMsg].filterMap id)
    let summaryMsg1 := summaryMsg0 ++
      (if totalCount.exploitCount > 0 then
        " with " ++ toString totalCount.exploitCount ++ " Exploitable "
          ++ vulStr totalCount.exploitCount
      else "")
    let summaryMsg := summaryMsg1 ++
      (if totalCount.vulnerabilityCount + totalCount.advisoryCount > 0 then
        " along with quick fixes"
      else "")
    msg ++ (if summaryMsg == "" then "No potential security vulnerabilities found"
            else "flagged " ++ summaryMsg)
  else
    msg ++ "No potential security vulnerabilities found"

/-- The "Scanned N dependenc(y|ies), " prefix of every summary message. -/
def scannedPrefix (deps : List Dep) : String :=
  "Scanned " ++ toString deps.length ++ " "
    ++ (if deps.length == 1 then "dependency" else "dependencies") ++ ", "

/-- Spec-side rendering of the summary body (spec section 4.7), written from
the spec's words: compose a phrase from whichever of the known-vulnerability
count and the advisory count are non-zero, joined with " and "; append the
exploitable-count clause exactly when that count is positive; append the
quick-fixes clause exactly when the combined vulnerability+advisory count is
positive; when the whole composition is empty report no findings, otherwise
prefix "flagged ". -/
def summaryBodySpec (c : TotalCount) : String :=
  let clauses : List String :=
    (if c.vulnerabilityCount ≠ 0 then
      [toString c.vulnerabilityCount ++ " Known Security " ++ vulStr c.vulnerabilityCount]
    else []) ++
    (if c.advisoryCount ≠ 0 then
      [toString c.advisoryCount ++ " Security " ++ advStr c.advisoryCount]
    else [])
  let withExploit := String.intercalate " and " clauses ++
    (if c.exploitCount > 0 then
      " with " ++ toString c.exploitCount ++ " Exploitable " ++ vulStr c.exploitCount
    else "")
  let full := withExploit ++
    (if c.vulnerabilityCount + c.advisoryCount > 0 then " along with quick fixes" else "")
  if full == "" then "No potential security vulnerabilities found"
  else "flagged " ++ full

/-- A throwaway concrete dependency used to instantiate list literals. -/
def sampleDep (n v : String) : Dep :=
  ⟨⟨n, ⟨0, 0⟩⟩, ⟨v, ⟨0, 4⟩⟩⟩

/-- A throwaway concrete diagnostic. -/
def sampleDiag : Diagnostic := ⟨⟨0, 0⟩, "Dependency Analytics", "vuln"⟩

/-- C7: with a non-empty diagnostics list the message is the scanned prefix
followed by the spec-side composition: clauses for the non-zero counts joined
with " and ", the exploitable clause exactly when `exploitCount > 0`, the
quick-fixes clause exactly when `vulnerabilityCount + advisoryCount > 0`.
In particular counts {1,1,1} join both clauses with " and " and append
" with 1 Exploitable Vulnerability", and counts {2,0,0} produce
"2 Known Security Vulnerabilities ... quick fixes" with no advisory clause. -/
theorem getCAmsg_composition :
    (∀ (deps : List Dep) (diagnostics : List Diagnostic) (c : TotalCount),
      diagnostics ≠ [] →
      getCAmsg deps diagnostics c = scannedPrefix deps ++ summaryBodySpec c) ∧
    getCAmsg [sampleDep "a" "1", sampleDep "b" "2", sampleDep "c" "3"]
        [sampleDiag] ⟨2, 0, 0⟩ =
      "Scanned 3 dependencies, flagged 2 Known Security Vulnerabilities along with quick fixes" ∧
    getCAmsg [sampleDep "a" "1"] [sampleDiag] ⟨1, 1, 1⟩ =
      "Scanned 1 dependency, flagged 1 Known Security Vulnerability and " ++
        "1 Security Advisory with 1 Exploitable Vulnerability along with quick fixes" := by
  refine ⟨?_, by rfl, by rfl⟩
  intro deps diagnostics c hne
  have hlen : diagnostics.length > 0 := List.length_pos.mpr hne
  unfold getCAmsg scannedPrefix summaryBodySpec
  simp only [if_pos hlen]
  rcases c with ⟨v, a, e⟩
  rcases Nat.eq_zero_or_pos v with hv | hv <;>
    rcases Nat.eq_zero_or_pos a with ha | ha <;>
      simp_all [String.intercalate, vulStr, advStr, Nat.pos_iff_ne_zero]

/-- C8: one dependency and no diagnostics produce exactly
"Scanned 1 dependency, No potential security vulnerabilities found",
whatever the counts. -/
theorem getCAmsg_one_dep_no_diags :
    ∀ (c : TotalCount),
      getCAmsg [sampleDep "lodash" "4.17.20"] [] c =
        "Scanned 1 dependency, No potential security vulnerabilities found" := by
  intro c
  rfl

/-- C9: with a non-empty diagnostics list but all three counts zero the
message still reports "No potential security vulnerabilities found" (the
no-findings wording depends on the counts, not only on the diagnostics
list being empty). -/
theorem getCAmsg_zero_counts_nonempty_diags :
    ∀ (deps : List Dep) (diagnostics : List Diagnostic),
      diagnostics ≠ [] →
      getCAmsg deps diagnostics ⟨0, 0, 0⟩ =
        scannedPrefix deps ++ "No potential security vulnerabilities found" := by
  intro deps diagnostics hne
  have hlen : diagnostics.length > 0 := List.length_pos.mpr hne
  unfold getCAmsg scannedPrefix
  simp [if_pos hlen, String.intercalate]

/-- Closed instance of `getCAmsg_zero_counts_nonempty_diags`. -/
theorem getCAmsg_zero_counts_nonempty_diags_witness :
    getCAmsg [sampleDep "a" "1", sampleDep "b" "2"] [sampleDiag] ⟨0, 0, 0⟩ =
      scannedPrefix [sampleDep "a" "1", sampleDep "b" "2"] ++
        "No potential security vulnerabilities found" :=
  getCAmsg_zero_counts_nonempty_diags _ [sampleDiag] (by decide)

/-- Closed instance of `getCAmsg_composition`. -/
theorem getCAmsg_composition_witness :
    getCAmsg [sampleDep "a" "1"] [sampleDiag] ⟨0, 2, 1⟩ =
      scannedPrefix [sampleDep "a" "1"] ++ summaryBodySpec ⟨0, 2, 1⟩ :=
  getCAmsg_composition.1 [sampleDep "a" "1"] [sampleDiag] ⟨0, 2, 1⟩ (by decide)

/-- Recursion worker for `slicePayload`.  The source iterates
`for (i = 0; i < payload.length; i += batchSize)`; the fuel, instantiated
with the payload length, only serves Lean's structural termination and is
never exhausted before the list is (each step consumes at least one
element when the batch size is positive). -/
def slicePayloadGo : Nat → List PkgVer → Nat → String → List RequestBatch
  | 0, _, _, _ => []
  | _ + 1, [], _, _ => []
  | _ + 1, _ :: _, 0, _ => []
  | fuel + 1, p :: ps, b + 1, ecosystem =>
      ⟨ecosystem, p :: ps.take b⟩ :: slicePayloadGo fuel (ps.drop b) (b + 1) ecosystem

/-- `slicePayload` (server.ts:246-255): chunk the payload into request
objects `{"ecosystem": ecosystem, "package_versions": payload.slice(i,
i + batchSize)}` of at most `batchSize` items each.  For `batchSize = 0`
the source loop would not terminate; the embedding returns `[]` in that
(never exercised — the only call site passes the constant 10) case. -/
def slicePayload (payload : List PkgVer) (batchSize : Nat) (ecosystem : String) :
    List RequestBatch :=
  slicePayloadGo payload.length payload batchSize ecosystem

/-- Joining the slices restores the payload while the fuel lasts:
the slicing partitions the payload into consecutive, order-preserving
chunks. -/
theorem slicePayloadGo_flatMap (fuel : Nat) :
    ∀ (payload : List PkgVer) (b : Nat) (eco : String),
      payload.length ≤ fuel → 0 < b →
      (slicePayloadGo fuel payload b eco).flatMap (fun r => r.package_versions) =
        payload := by
  induction fuel with
  | zero =>
      intro payload b eco hf _
      rw [Nat.le_zero, List.length_eq_zero] at hf
      subst hf
      rfl
  | succ fuel ih =>
      intro payload b eco hf hb
      match payload, b with
      | [], _ => rfl
      | _ :: _, 0 => omega
      | p :: ps, b + 1 =>
          have hlen : (ps.drop b).length ≤ fuel := by
            simp only [List.length_drop]
            simp only [List.length_cons] at hf
            omega
          simp only [slicePayloadGo, List.flatMap_cons, List.cons_append]
          rw [ih (ps.drop b) (b + 1) eco hlen (Nat.succ_pos b),
            List.take_append_drop]

/-- Every slice carries the ecosystem tag and at most `b` items. -/
theorem slicePayloadGo_batches (fuel : Nat) :
    ∀ (payload : List PkgVer) (b : Nat) (eco : String) (r : RequestBatch),
      r ∈ slicePayloadGo fuel payload b eco →
      r.ecosystem = eco ∧ r.package_versions.length ≤ b := by
  induction fuel with
  | zero =>
      intro payload b eco r hr
      simp [slicePayloadGo] at hr
  | succ fuel ih =>
      intro payload b eco r hr
      match payload, b with
      | [], _ => simp [slicePayloadGo] at hr
      | _ :: _, 0 => simp [slicePayloadGo] at hr
      | p :: ps, b + 1 =>
          simp only [slicePayloadGo, List.mem_cons] at hr
          rcases hr with rfl | hr
          · refine ⟨rfl, ?_⟩
            simp only [List.length_cons, List.length_take]
            omega
          · exact ih (ps.drop b) (b + 1) eco r hr

/-- A concrete payload of 23 items. -/
def payload23 : List PkgVer :=
  (List.range 23).map (fun i => ⟨"pkg" ++ toString i, "1.0.0"⟩)

/-- C4: slicing with batch size 10 partitions the payload into consecutive
batches preserving input order (their concatenation is the payload), each
carrying the ecosystem tag and holding at most 10 items; slicing 23 items
yields batches of sizes [10, 10, 3]. -/
theorem slicePayload_spec :
    (∀ (payload : List PkgVer) (eco : String),
      (slicePayload payload 10 eco).flatMap (fun r => r.package_versions) = payload) ∧
    (∀ (payload : List PkgVer) (eco : String) (r : RequestBatch),
      r ∈ slicePayload payload 10 eco →
      r.ecosystem = eco ∧ r.package_versions.length ≤ 10) ∧
    (slicePayload payload23 10 "npm").map (fun r => r.package_versions.length) =
      [10, 10, 3] := by
  refine ⟨fun payload eco =>
      slicePayloadGo_flatMap payload.length payload 10 eco le_rfl (by omega),
    fun payload eco r hr => slicePayloadGo_batches payload.length payload 10 eco r hr,
    by decide⟩

/-- Closed instance of `slicePayload_spec`. -/
theorem slicePayload_spec_witness :
    (slicePayload payload23 10 "npm").flatMap (fun r => r.package_versions) = payload23 ∧
    (⟨"npm", payload23.take 10⟩ : RequestBatch).ecosystem = "npm" ∧
    (⟨"npm", payload23.take 10⟩ : RequestBatch).package_versions.length ≤ 10 :=
  ⟨slicePayload_spec.1 payload23 "npm",
   slicePayload_spec.2.1 payload23 "npm" ⟨"npm", payload23.take 10⟩ (by decide)⟩

/-- The character class `[a-zA-Z0-9]` of `regexVersion` (server.ts:257). -/
def isAlphaNumAscii (c : Char) : Bool :=
  (('a' ≤ c) && (c ≤ 'z')) || (('A' ≤ c) && (c ≤ 'Z')) || (('0' ≤ c) && (c ≤ '9'))

/-- JavaScript `String.prototype.trim`, stripping whitespace from both
ends, rendered over the character list of the string. -/
def trimChars (l : List Char) : List Char :=
  ((l.dropWhile Char.isWhitespace).reverse.dropWhile Char.isWhitespace).reverse

/-- `d.version.value.trim()` as used at server.ts:277. -/
def jsTrim (s : String) : String := ⟨trimChars s.data⟩

/-- Split a character list at every dot (the segments of the candidate
version string, dots excluded).  Splitting always yields one segment more
than the number of dots; segments may be empty. -/
def splitDots : List Char → List (List Char)
  | [] => [[]]
  | c :: rest =>
      match splitDots rest with
      | [] => [[]]
      | seg :: segs => if c = '.' then [] :: seg :: segs else (c :: seg) :: segs

/-- Semantics of `regexVersion` (server.ts:257), the anchored pattern
`^([a-zA-Z0-9]+\.)?([a-zA-Z0-9]+\.)?([a-zA-Z0-9]+\.)?([a-zA-Z0-9]+)$`:
it matches exactly the strings made of one to four non-empty alphanumeric
segments separated by single dots.  `splitDots` realizes that reading: an
empty or non-alphanumeric segment refutes every `[a-zA-Z0-9]+` group, and
more than four segments exceed the four groups. -/
def regexVersionTest (s : String) : Bool :=
  let parts := splitDots s.data
  decide (parts.length ≤ 4) && parts.all (fun p => (!p.isEmpty) && p.all isAlphaNumAscii)

/-- The version validity filter of `sendDiagnostics` (server.ts:274-281):
for every ecosystem other than golang keep the dependencies whose trimmed
version text passes `regexVersion`; for golang keep everything. -/
def validPackagesOf (ecosystem : String) (deps : List Dep) : List Dep :=
  if ecosystem ≠ "golang" then
    deps.filter (fun d => regexVersionTest (jsTrim d.version.value))
  else deps

/-- C5: for a non-golang ecosystem exactly the collected dependencies whose
trimmed version text matches the structural pattern are kept; for golang no
filter is applied. -/
theorem validPackages_spec :
    (∀ (eco : String) (deps : List Dep) (d : Dep), eco ≠ "golang" →
      (d ∈ validPackagesOf eco deps ↔
        d ∈ deps ∧ regexVersionTest (jsTrim d.version.value) = true)) ∧
    (∀ deps : List Dep, validPackagesOf "golang" deps = deps) := by
  constructor
  · intro eco deps d heco
    unfold validPackagesOf
    rw [if_pos heco]
    exact List.mem_filter
  · intro deps
    rfl

/-- Closed instance of `validPackages_spec`: a non-conforming version
("1.0.0-beta") is excluded while a conforming one ("4.17.21") is kept. -/
theorem validPackages_spec_witness :
    (sampleDep "bad" "1.0.0-beta" ∈
        validPackagesOf "npm" [sampleDep "bad" "1.0.0-beta", sampleDep "ok" "4.17.21"] ↔
      sampleDep "bad" "1.0.0-beta" ∈
          [sampleDep "bad" "1.0.0-beta", sampleDep "ok" "4.17.21"] ∧
        regexVersionTest (jsTrim (sampleDep "bad" "1.0.0-beta").version.value) = true) ∧
    sampleDep "ok" "4.17.21" ∈
      validPackagesOf "npm" [sampleDep "bad" "1.0.0-beta", sampleDep "ok" "4.17.21"] :=
  ⟨validPackages_spec.1 "npm" _ _ (by decide), by decide⟩

/-- The diagnostic source string attached by the security engine; imported
by server.ts from the external `vulnerability` module, whose concrete value
the orchestration logic never inspects beyond equality with itself. -/
def AnalyticsSource : String := "Dependency Analytics"

/-- The `command` payload of a code action. -/
structure ActionCommand where
  command : String
  title : String
deriving DecidableEq, Repr

/-- An LSP code action as server.ts builds and returns them. -/
structure CodeAction where
  title : String
  kind : String
  command : Option ActionCommand
deriving DecidableEq, Repr

/-- `fullStackReportAction` (server.ts:143-150); `CodeActionKind.QuickFix`
is the LSP constant string "quickfix". -/
def fullStackReportAction : CodeAction :=
  ⟨"Detailed Vulnerability Report", "quickfix",
   some ⟨"extension.fabric8AnalyticsWidgetFullStack", "Analytics Report"⟩⟩

/-- The lookup key `diagnostic.range.start.line + "|" +
diagnostic.range.start.character` (server.ts:356). -/
def diagKey (d : Diagnostic) : String :=
  toString d.start.line ++ "|" ++ toString d.start.character

/-- The `for` loop of the `onCodeAction` handler (server.ts:355-364),
threading the accumulated action list and the `hasAnalyticsDiagonostic`
flag.  A missing map entry (JavaScript `undefined`, filtered by
`!= null`) is the `none` case of the index. -/
def onCodeActionLoop (index : String → Option CodeAction) :
    List Diagnostic → List CodeAction → Bool → List CodeAction × Bool
  | [], acc, flag => (acc, flag)
  | d :: rest, acc, flag =>
      let acc' := match index (diagKey d) with
        | some a => acc ++ [a]
        | none => acc
      let flag' := if flag then flag else d.source == AnalyticsSource
      onCodeActionLoop index rest acc' flag'

/-- The `onCodeAction` handler (server.ts:352-369): run the loop over the
request's diagnostics starting from the empty list and a false flag, then
append `fullStackReportAction` when the configuration flag and the
analytics flag are both set. -/
def onCodeAction (provide_fullstack_action : Bool)
    (index : String → Option CodeAction) (diagnostics : List Diagnostic) :
    List CodeAction :=
  let r := onCodeActionLoop index diagnostics [] false
  if provide_fullstack_action && r.2 then r.1 ++ [fullStackReportAction]
  else r.1

/-- The loop returns the indexed actions of the diagnostics in request
order appended to the accumulator, and ors the flag with "some diagnostic
has the analytics source". -/
theorem onCodeActionLoop_spec (index : String → Option CodeAction)
    (diags : List Diagnostic) (acc : List CodeAction) (flag : Bool) :
    onCodeActionLoop index diags acc flag =
      (acc ++ diags.filterMap (fun d => index (diagKey d)),
       flag || diags.any (fun d => d.source == AnalyticsSource)) := by
  induction diags generalizing acc flag with
  | nil => simp [onCodeActionLoop]
  | cons d rest ih =>
      simp only [onCodeActionLoop, ih, List.filterMap_cons, List.any_cons]
      cases h : index (diagKey d) <;> cases flag <;> simp [h]

/-- C10: the returned action list is, in the order of the request's
diagnostics, each quick-fix found in the index under the diagnostic's
start-line/start-character key (diagnostics with no indexed action
contribute nothing), with the full-stack report action appended exactly
when the full-stack option is enabled and some diagnostic has the
analytics source. -/
theorem onCodeAction_spec :
    ∀ (cfg : Bool) (index : String → Option CodeAction) (diags : List Diagnostic),
      onCodeAction cfg index diags =
        diags.filterMap (fun d => index (diagKey d)) ++
          (if cfg && diags.any (fun d => d.source == AnalyticsSource) then
            [fullStackReportAction]
          else []) := by
  intro cfg index diags
  unfold onCodeAction
  rw [onCodeActionLoop_spec]
  by_cases hc : (cfg && diags.any (fun d => d.source == AnalyticsSource)) = true
  · simp [hc]
  · simp only [Bool.not_eq_true] at hc
    simp [hc]

/-- A document-lifecycle event as delivered by the LSP connection. -/
inductive DocEvent where
  | edit (uri : String)
  | save (uri : String)
  | openDoc (uri : String)
  | close (uri : String)
deriving DecidableEq, Repr

/-- The single global `checkDelay` timer of server.ts:333: either no timer
is pending or one is pending with its fire time and the URI whose analysis
it will run. -/
structure TimerState where
  pending : Option (Nat × String)
deriving DecidableEq, Repr

/-- An observable effect of the debounce layer: running one analysis
(`server.handle_file_event`) for a URI. -/
inductive DebounceAction where
  | analyze (uri : String)
deriving DecidableEq, Repr

/-- The connection handlers (server.ts:333-350, 371-373) at the moment
`now`:
 * `onDidChangeTextDocument` — `clearTimeout(checkDelay)` then
   `checkDelay = setTimeout(…, 500)`: replace any pending timer by one
   firing 500 ms later for this URI, no immediate analysis;
 * `onDidSaveTextDocument` — `clearTimeout(checkDelay)` then
   `handle_file_event` immediately;
 * `onDidOpenTextDocument` — `handle_file_event` immediately, timer
   untouched;
 * `onDidCloseTextDocument` — `clearTimeout(checkDelay)` only. -/
def handleDocEvent (now : Nat) : DocEvent → TimerState → TimerState × List DebounceAction
  | .edit uri, _ => (⟨some (now + 500, uri)⟩, [])
  | .save uri, _ => (⟨none⟩, [.analyze uri])
  | .openDoc uri, s => (s, [.analyze uri])
  | .close _, _ => (⟨none⟩, [])

/-- The platform timer: when the clock reaches a pending timer's fire time
before the next handler runs, the timer callback
(`server.handle_file_event` for the scheduled URI) runs and the timer is
gone. -/
def fireIfDue (t : Nat) (s : TimerState) : TimerState × List DebounceAction :=
  match s.pending with
  | some (ft, u) => if ft ≤ t then (⟨none⟩, [.analyze u]) else (s, [])
  | none => (s, [])

/-- After the last handler returns, a still-pending timer eventually
fires. -/
def flushTimer (s : TimerState) : List DebounceAction :=
  match s.pending with
  | some (_, u) => [.analyze u]
  | none => []

/-- Run a time-ordered list of document events through the debounce layer:
before each handler, fire the pending timer if it is due; after the last
event, let any pending timer expire.  Returns the analyses run, in
order. -/
def runDocEvents : List (Nat × DocEvent) → TimerState → List DebounceAction
  | [], s => flushTimer s
  | (t, e) :: rest, s =>
      let fired := fireIfDue t s
      let handled := handleDocEvent t e fired.1
      fired.2 ++ handled.2 ++ runDocEvents rest handled.1

/-- `chainOK tp evs`: the timed edit list `evs` is time-ordered and every
gap — including the gap from the preceding edit at time `tp` — is strictly
below the 500 ms quiescence window. -/
def chainOK : Nat → List (Nat × String) → Bool
  | _, [] => true
  | tp, (t, _) :: rest => decide (tp ≤ t) && decide (t < tp + 500) && chainOK t rest

/-- A non-empty timed edit list whose consecutive gaps all stay strictly
below the 500 ms quiescence window. -/
def editsWithinWindow : List (Nat × String) → Bool
  | [] => true
  | (t, _) :: rest => chainOK t rest

/-- With a timer pending from an edit at `tp` and every later edit inside
the window, only the very last timer survives to fire: one analysis
results, for the URI of the last edit. -/
theorem runDocEvents_edits (edits : List (Nat × String)) :
    ∀ (tp : Nat) (up : String), chainOK tp edits = true →
      runDocEvents (edits.map (fun p => (p.1, DocEvent.edit p.2))) ⟨some (tp + 500, up)⟩ =
        [DebounceAction.analyze (((tp, up) :: edits).getLast (List.cons_ne_nil _ _)).2] := by
  induction edits with
  | nil =>
      intro tp up _
      rfl
  | cons e rest ih =>
      intro tp up hchain
      obtain ⟨t, u⟩ := e
      simp only [chainOK, Bool.and_eq_true, decide_eq_true_eq] at hchain
      obtain ⟨⟨h1, h2⟩, h3⟩ := hchain
      simp only [List.map_cons, runDocEvents, fireIfDue, handleDocEvent]
      rw [if_neg (by omega)]
      simp only [List.nil_append]
      rw [ih t u h3]
      rw [List.getLast_cons_cons]

/-- C6: (1) any non-empty sequence of edits whose gaps all stay inside the
500 ms quiescence window produces exactly one analysis — each edit cancels
the pending timer and schedules a new one, and only the last timer fires,
for the last edited URI; (2) a save event runs an analysis immediately and
clears any pending timer, whatever the timer state; (3) a close event
clears any pending timer and runs nothing. -/
theorem debounce_spec :
    (∀ (edits : List (Nat × String)) (h1 : edits ≠ []),
      editsWithinWindow edits = true →
      runDocEvents (edits.map (fun p => (p.1, DocEvent.edit p.2))) ⟨none⟩ =
        [DebounceAction.analyze (edits.getLast h1).2]) ∧
    (∀ (now : Nat) (uri : String) (s : TimerState),
      handleDocEvent now (.save uri) s = (⟨none⟩, [.analyze uri])) ∧
    (∀ (now : Nat) (uri : String) (s : TimerState),
      handleDocEvent now (.close uri) s = (⟨none⟩, [])) ∧
    (∀ (now : Nat) (uri uriPending : String) (ft : Nat), now < ft →
      runDocEvents [(now, DocEvent.close uri)] ⟨some (ft, uriPending)⟩ = []) := by
  refine ⟨?_, fun _ _ _ => rfl, fun _ _ _ => rfl, ?_⟩
  · intro edits h1 hwin
    match edits with
    | (t0, u0) :: rest =>
        simp only [editsWithinWindow] at hwin
        simp only [List.map_cons, runDocEvents, fireIfDue, handleDocEvent]
        rw [runDocEvents_edits rest t0 u0 hwin]
        rfl
  · intro now uri uriPending ft hlt
    simp only [runDocEvents, fireIfDue, handleDocEvent]
    rw [if_neg (by omega)]
    rfl

/-- Closed instance of `debounce_spec`: three rapid edits yield one
analysis; a save with a pending timer analyzes at once; a close with a
pending timer runs nothing. -/
theorem debounce_spec_witness :
    runDocEvents
        [(0, DocEvent.edit "file:///p/package.json"),
         (100, DocEvent.edit "file:///p/package.json"),
         (550, DocEvent.edit "file:///p/package.json")] ⟨none⟩ =
      [DebounceAction.analyze "file:///p/package.json"] ∧
    handleDocEvent 700 (.save "file:///p/package.json") ⟨some (1050, "file:///p/package.json")⟩ =
      (⟨none⟩, [.analyze "file:///p/package.json"]) ∧
    runDocEvents [(700, DocEvent.close "file:///p/package.json")]
        ⟨some (1050, "file:///p/package.json")⟩ = [] := by
  refine ⟨?_, debounce_spec.2.1 700 _ _, debounce_spec.2.2.2 700 _ _ 1050 (by omega)⟩
  have h := debounce_spec.1
      [(0, "file:///p/package.json"), (100, "file:///p/package.json"),
       (550, "file:///p/package.json")] (by decide) (by decide)
  exact h

/-- `caDefaultMsg` (server.ts:174). -/
def caDefaultMsg : String := "Checking for security vulnerabilities ..."

/-- A per-package vulnerability record as returned by the remote service:
`r.package` and `r.version` are read at server.ts:231, the rest is opaque
payload handed to the pipeline. -/
structure VulnRecord where
  package : String
  version : String
  payload : String
deriving DecidableEq, Repr

/-- The outcome of one batch's `fetchVulnerabilities` call
(server.ts:177-219): a 2xx response resolves with the parsed record array;
a non-2xx response resolves with the numeric status (server.ts:212-215);
a transport error is caught and the promise resolves with `undefined`
(server.ts:216-218). -/
inductive FetchResult where
  | ok (records : List VulnRecord)
  | httpError (status : Nat)
  | transportError
deriving DecidableEq, Repr

/-- Abstract behaviour of the external `DiagnosticsPipeline` /
`SecurityEngine` consumers invoked by `runPipeline` (server.ts:229-243):
for each response record the pipeline appends some diagnostics to the
shared array and contributes some counts.  Both are opaque to the
orchestration logic and are therefore model parameters. -/
structure PipelineModel where
  diagsOf : VulnRecord → List Diagnostic
  countsOf : VulnRecord → TotalCount

/-- Mutable state of one analysis cycle: the shared `diagnostics` array
and the `totalCount` accumulator (server.ts:284-285). -/
structure CycleState where
  diagnostics : List Diagnostic
  totalCount : TotalCount
deriving DecidableEq, Repr

/-- An observable effect on the LSP connection during one cycle. -/
inductive Event where
  | publish (uri : String) (diagnostics : List Diagnostic)
  | caNotification (data : String) (done : Bool) (uri : String)
  | caError (data : String) (uri : String)
  | fetch (batchIndex : Nat)
  | cacheAdd (records : List VulnRecord)
  | caNotificationDone (data : String) (diagCount : Nat) (vulnCount : TotalCount)
      (depCount : Nat) (uri : String)
deriving DecidableEq, Repr

/-- `runPipeline` (server.ts:229-243): feed each response record through
the pipeline, appending its diagnostics to the shared array and adding its
counts to the accumulator, then publish the whole current array
(`connection.sendDiagnostics`, server.ts:241). -/
def runPipelineModel (pm : PipelineModel) (uri : String) (response : List VulnRecord)
    (st : CycleState) : CycleState × Event :=
  let st' : CycleState :=
    ⟨st.diagnostics ++ response.flatMap pm.diagsOf,
     response.foldl (fun c r => c.add (pm.countsOf r)) st.totalCount⟩
  (st', .publish uri st'.diagnostics)

/-- The environment one `sendDiagnostics` cycle runs in: everything the
cycle consumes from outside `src/server.ts` — the collector's outcome, the
cache contents at `cache.get` time, each batch's fetch outcome, and the
pipeline behaviour. -/
structure CycleEnv where
  ecosystem : String
  diagnosticFilePath : String
  collectResult : Except String (List Dep)
  cacheLookup : Dep → Option VulnRecord
  fetchResult : Nat → FetchResult
  pm : PipelineModel

/-- Modelled from the spec: the cache factory is external to `src/`; spec
section 4.5 fixes `get(keys)` to return a same-length, same-order list of
`{key, value-or-absent}` entries, so `cache.get(validPackages)`
(server.ts:293) is the order-preserving tagging of each valid package with
its cached record or its absence. -/
def cachedItemsOf (env : CycleEnv) (deps : List Dep) : List (Dep × Option VulnRecord) :=
  (validPackagesOf env.ecosystem deps).map (fun d => (d, env.cacheLookup d))

/-- `cachedItems.filter(c => c.V !== undefined).map(c => c.V)`
(server.ts:294). -/
def cachedValuesOf (env : CycleEnv) (deps : List Dep) : List VulnRecord :=
  (cachedItemsOf env deps).filterMap (fun c => c.2)

/-- `cachedItems.filter(c => c.V === undefined).map(c => c.K)`
(server.ts:295). -/
def missedItemsOf (env : CycleEnv) (deps : List Dep) : List Dep :=
  ((cachedItemsOf env deps).filter (fun c => c.2.isNone)).map (fun c => c.1)

/-- `missedItems.map(d => ({package: d.name.value, version: d.version.value}))`
(server.ts:300). -/
def requestPayloadOf (env : CycleEnv) (deps : List Dep) : List PkgVer :=
  (missedItemsOf env deps).map (fun d => ⟨d.name.value, d.version.value⟩)

/-- `slicePayload(requestPayload, batchSize, ecosystem)` with the constant
`batchSize = 10` (server.ts:283, 306). -/
def batchesOf (env : CycleEnv) (deps : List Dep) : List RequestBatch :=
  slicePayload (requestPayloadOf env deps) 10 env.ecosystem

/-- Number of miss batches of the cycle. -/
def numBatches (env : CycleEnv) (deps : List Dep) : Nat :=
  (batchesOf env deps).length

/-- Settlement of the in-flight batches, in the order they settle.  A batch
whose fetch succeeded runs `cacheAndRunPipeline` (server.ts:302-305):
write-through `cache.add(response)` then pipeline run and publish.  For a
failed batch `fetchVulnerabilities` resolved with the numeric status or
`undefined`; `cacheAndRunPipeline` then throws (`response.forEach` of a
non-array, server.ts:230) before any diagnostic or count is appended, and
`Promise.allSettled` (server.ts:309) absorbs the rejection — so a failed
batch contributes nothing and is never retried. -/
def processSettles (env : CycleEnv) : List Nat → CycleState → CycleState × List Event
  | [], st => (st, [])
  | i :: rest, st =>
      match env.fetchResult i with
      | .ok records =>
          let step := runPipelineModel env.pm env.diagnosticFilePath records st
          let tail := processSettles env rest step.1
          (tail.1, Event.cacheAdd records :: step.2 :: tail.2)
      | .httpError _ => processSettles env rest st
      | .transportError => processSettles env rest st

/-- One `sendDiagnostics` cycle (server.ts:258-314) as the list of events
it sends over the connection, given the settle order of its batches:
 1. clear the published diagnostics (server.ts:260);
 2. progress notification `caNotification` with `done: false`
    (server.ts:261);
 3. `collector.collect` — on rejection, warn, send `caError` and return
    (server.ts:268-272);
 4. filter to valid packages, partition by cache, run the pipeline on the
    hits and publish — synchronously, before any fetch (server.ts:274-297);
 5. slice the misses and issue one fetch per batch (server.ts:306-307);
 6. as each batch settles, cache write-through + pipeline run + publish
    for successes, nothing for failures;
 7. after `Promise.allSettled`, final `caNotification` with `done: true`
    carrying `getCAmsg`, the diagnostic count, the accumulated counts and
    the dependency count (server.ts:313). -/
def sendDiagnosticsTrace (env : CycleEnv) (settleOrder : List Nat) : List Event :=
  let clear := Event.publish env.diagnosticFilePath []
  let startNotif := Event.caNotification caDefaultMsg false env.diagnosticFilePath
  match env.collectResult with
  | .error e => [clear, startNotif, .caError e env.diagnosticFilePath]
  | .ok deps =>
      let hitsStep := runPipelineModel env.pm env.diagnosticFilePath
        (cachedValuesOf env deps) ⟨[], ⟨0, 0, 0⟩⟩
      let fetchEvents := (List.range (numBatches env deps)).map Event.fetch
      let settled := processSettles env settleOrder hitsStep.1
      [clear, startNotif, hitsStep.2] ++ fetchEvents ++ settled.2 ++
        [.caNotificationDone
          (getCAmsg deps settled.1.diagnostics settled.1.totalCount)
          settled.1.diagnostics.length settled.1.totalCount deps.length
          env.diagnosticFilePath]

/-- The diagnostics publications of a trace, in order. -/
def publishesOf (tr : List Event) : List (List Diagnostic) :=
  tr.filterMap (fun e => match e with
    | .publish _ d => some d
    | _ => none)

/-- The response arrays of the batches that settled successfully, in
settle order. -/
def successesOf (env : CycleEnv) (order : List Nat) : List (List VulnRecord) :=
  order.filterMap (fun i => match env.fetchResult i with
    | .ok records => some records
    | _ => none)

/-- Fold the per-record counts over a response list, starting from `c0`
(the accumulation of server.ts:236-238). -/
def sumCounts (pm : PipelineModel) (records : List VulnRecord) (c0 : TotalCount) :
    TotalCount :=
  records.foldl (fun c r => c.add (pm.countsOf r)) c0

/-- The diagnostics produced by the cache hits. -/
def hitDiagsOf (env : CycleEnv) (deps : List Dep) : List Diagnostic :=
  (cachedValuesOf env deps).flatMap env.pm.diagsOf

/-- The cycle state right after the synchronous pipeline run on the cache
hits (server.ts:297). -/
def hitsStateOf (env : CycleEnv) (deps : List Dep) : CycleState :=
  ⟨hitDiagsOf env deps, sumCounts env.pm (cachedValuesOf env deps) ⟨0, 0, 0⟩⟩

/-- The final cycle state once every batch has settled. -/
def finalStateOf (env : CycleEnv) (order : List Nat) (deps : List Dep) : CycleState :=
  (processSettles env order (hitsStateOf env deps)).1

/-- The diagnostics publications caused by the settling miss batches. -/
def missPublishesOf (env : CycleEnv) (order : List Nat) (deps : List Dep) :
    List (List Diagnostic) :=
  publishesOf (processSettles env order (hitsStateOf env deps)).2

/-- `sumCounts` componentwise: each counter of the fold is the starting
counter plus the sum of the per-record contributions. -/
theorem sumCounts_eq (pm : PipelineModel) (l : List VulnRecord) (c0 : TotalCount) :
    sumCounts pm l c0 =
      ⟨c0.vulnerabilityCount + (l.map (fun r => (pm.countsOf r).vulnerabilityCount)).sum,
       c0.advisoryCount + (l.map (fun r => (pm.countsOf r).advisoryCount)).sum,
       c0.exploitCount + (l.map (fun r => (pm.countsOf r).exploitCount)).sum⟩ := by
  induction l generalizing c0 with
  | nil => simp [sumCounts]
  | cons r rest ih =>
      simp only [sumCounts, List.foldl_cons] at *
      rw [ih]
      simp [TotalCount.add, Nat.add_assoc]

/-- Count accumulation is insensitive to the order of the records. -/
theorem sumCounts_perm (pm : PipelineModel) {l₁ l₂ : List VulnRecord}
    (h : l₁.Perm l₂) (c0 : TotalCount) :
    sumCounts pm l₁ c0 = sumCounts pm l₂ c0 := by
  rw [sumCounts_eq, sumCounts_eq,
    (h.map (fun r => (pm.countsOf r).vulnerabilityCount)).sum_eq,
    (h.map (fun r => (pm.countsOf r).advisoryCount)).sum_eq,
    (h.map (fun r => (pm.countsOf r).exploitCount)).sum_eq]

/-- Settling adds to the state exactly the successful batches'
contributions: their diagnostics, appended in settle order, and their
counts; failed batches contribute nothing. -/
theorem processSettles_fst (env : CycleEnv) (order : List Nat) (st : CycleState) :
    (processSettles env order st).1 =
      ⟨st.diagnostics ++
        (successesOf env order).flatMap (fun rs => rs.flatMap env.pm.diagsOf),
       sumCounts env.pm (successesOf env order).flatten st.totalCount⟩ := by
  induction order generalizing st with
  | nil => simp [processSettles, successesOf, sumCounts]
  | cons i rest ih =>
      match h : env.fetchResult i with
      | .ok records =>
          simp only [processSettles, h, runPipelineModel, ih, successesOf,
            List.filterMap_cons, List.flatMap_cons, List.flatten_cons]
          refine congrArg₂ CycleState.mk ?_ ?_
          · rw [List.append_assoc]
          · rw [sumCounts, sumCounts, List.foldl_append]
      | .httpError s =>
          simp only [processSettles, h, ih, successesOf, List.filterMap_cons]
      | .transportError =>
          simp only [processSettles, h, ih, successesOf, List.filterMap_cons]

/-- Every event a settling batch emits is a cache write-through or a
diagnostics publication for the cycle's file. -/
theorem processSettles_snd_shape (env : CycleEnv) (order : List Nat) (st : CycleState) :
    ∀ e ∈ (processSettles env order st).2,
      (∃ rs, e = Event.cacheAdd rs) ∨
      (∃ d, e = Event.publish env.diagnosticFilePath d) := by
  induction order generalizing st with
  | nil => simp [processSettles]
  | cons i rest ih =>
      intro e he
      match h : env.fetchResult i with
      | .ok records =>
          simp only [processSettles, h, runPipelineModel, List.mem_cons] at he
          rcases he with rfl | rfl | he
          · exact Or.inl ⟨records, rfl⟩
          · exact Or.inr ⟨_, rfl⟩
          · exact ih _ e he
      | .httpError s =>
          simp only [processSettles, h] at he
          exact ih st e he
      | .transportError =>
          simp only [processSettles, h] at he
          exact ih st e he

/-- Every diagnostics set a settling batch publishes extends the
diagnostics present when settling started. -/
theorem processSettles_snd_publishes (env : CycleEnv) (order : List Nat)
    (st : CycleState) :
    ∀ l ∈ publishesOf (processSettles env order st).2,
      ∃ t, l = st.diagnostics ++ t := by
  induction order generalizing st with
  | nil => simp [processSettles, publishesOf]
  | cons i rest ih =>
      intro l hl
      match h : env.fetchResult i with
      | .ok records =>
          simp only [processSettles, h, runPipelineModel, publishesOf,
            List.filterMap_cons, List.mem_cons] at hl
          rcases hl with rfl | hl
          · exact ⟨_, rfl⟩
          · obtain ⟨t, ht⟩ := ih _ l hl
            simp only [ht, List.append_assoc]
            exact ⟨_, rfl⟩
      | .httpError s =>
          simp only [processSettles, h] at hl
          exact ih st l hl
      | .transportError =>
          simp only [processSettles, h] at hl
          exact ih st l hl

/-- `publishesOf` distributes over trace concatenation. -/
theorem publishesOf_append (a b : List Event) :
    publishesOf (a ++ b) = publishesOf a ++ publishesOf b := by
  simp [publishesOf, List.filterMap_append]

/-- Fetch events publish nothing. -/
theorem publishesOf_map_fetch (l : List Nat) :
    publishesOf (l.map Event.fetch) = [] := by
  induction l with
  | nil => rfl
  | cons i rest ih =>
      simp only [publishesOf, List.map_cons, List.filterMap_cons] at *
      exact ih

/-- Counting a fetch event among mapped fetch events counts the index. -/
theorem count_fetch_map (l : List Nat) (i : Nat) :
    ((l.map Event.fetch).count (Event.fetch i)) = l.count i := by
  induction l with
  | nil => rfl
  | cons j rest ih =>
      simp [List.count_cons, ih]

/-- An index occurs in `range n` once when below `n`, never otherwise. -/
theorem count_range_eq (n i : Nat) : (List.range n).count i = if i < n then 1 else 0 := by
  by_cases h : i < n
  · simp [h, List.count_eq_one_of_mem, List.nodup_range, List.mem_range]
  · simp [h, List.count_eq_zero.mpr, List.mem_range]

/-- Shape of a cycle whose collector succeeded: clear, progress
notification, synchronous hits publication, one fetch per batch, the
settle events, and the final summary notification. -/
theorem sendDiagnosticsTrace_ok (env : CycleEnv) (order : List Nat) (deps : List Dep)
    (hc : env.collectResult = .ok deps) :
    sendDiagnosticsTrace env order =
      [Event.publish env.diagnosticFilePath [],
       Event.caNotification caDefaultMsg false env.diagnosticFilePath,
       Event.publish env.diagnosticFilePath (hitDiagsOf env deps)] ++
      (List.range (numBatches env deps)).map Event.fetch ++
      (processSettles env order (hitsStateOf env deps)).2 ++
      [Event.caNotificationDone
        (getCAmsg deps (finalStateOf env order deps).diagnostics
          (finalStateOf env order deps).totalCount)
        (finalStateOf env order deps).diagnostics.length
        (finalStateOf env order deps).totalCount deps.length
        env.diagnosticFilePath] := by
  unfold sendDiagnosticsTrace
  rw [hc]
  rfl

/-- C1: whatever order the batches settle in (any permutation of the batch
indices), the cycle runs to completion — the trace ends with the summary
notification carrying the accumulated state; the final diagnostics are the
hits' diagnostics followed by exactly the successful batches'
contributions (a failed batch contributes zero diagnostics); the final
counts are those accumulated from the batches that succeeded, independent
of settle order; and every batch is fetched exactly once (no retry). -/
theorem batch_failure_fail_open (env : CycleEnv) (order : List Nat) (deps : List Dep)
    (hc : env.collectResult = .ok deps)
    (hperm : order.Perm (List.range (numBatches env deps))) :
    (sendDiagnosticsTrace env order).getLast? = some (Event.caNotificationDone
        (getCAmsg deps (finalStateOf env order deps).diagnostics
          (finalStateOf env order deps).totalCount)
        (finalStateOf env order deps).diagnostics.length
        (finalStateOf env order deps).totalCount deps.length
        env.diagnosticFilePath) ∧
    (finalStateOf env order deps).diagnostics =
      hitDiagsOf env deps ++
        (successesOf env order).flatMap (fun rs => rs.flatMap env.pm.diagsOf) ∧
    (finalStateOf env order deps).totalCount =
      sumCounts env.pm (successesOf env (List.range (numBatches env deps))).flatten
        (sumCounts env.pm (cachedValuesOf env deps) ⟨0, 0, 0⟩) ∧
    (∀ i, (sendDiagnosticsTrace env order).count (Event.fetch i) =
      if i < numBatches env deps then 1 else 0) := by
  have hshape := sendDiagnosticsTrace_ok env order deps hc
  refine ⟨?_, ?_, ?_, ?_⟩
  · rw [hshape, List.getLast?_concat]
  · show (processSettles env order (hitsStateOf env deps)).1.diagnostics = _
    rw [processSettles_fst]
    rfl
  · show (processSettles env order (hitsStateOf env deps)).1.totalCount = _
    rw [processSettles_fst]
    exact sumCounts_perm env.pm (hperm.filterMap _).flatten _
  · intro i
    rw [hshape]
    rw [List.count_append, List.count_append, List.count_append]
    have hA : ([Event.publish env.diagnosticFilePath [],
        Event.caNotification caDefaultMsg false env.diagnosticFilePath,
        Event.publish env.diagnosticFilePath (hitDiagsOf env deps)].count
          (Event.fetch i)) = 0 := by
      apply List.count_eq_zero.mpr
      simp
    have hB := count_fetch_map (List.range (numBatches env deps)) i
    have hC : ((processSettles env order (hitsStateOf env deps)).2.count
        (Event.fetch i)) = 0 := by
      apply List.count_eq_zero.mpr
      intro hmem
      rcases processSettles_snd_shape env order _ _ hmem with ⟨rs, h⟩ | ⟨d, h⟩ <;>
        simp at h
    have hD : ([Event.caNotificationDone
        (getCAmsg deps (finalStateOf env order deps).diagnostics
          (finalStateOf env order deps).totalCount)
        (finalStateOf env order deps).diagnostics.length
        (finalStateOf env order deps).totalCount deps.length
        env.diagnosticFilePath].count (Event.fetch i)) = 0 := by
      apply List.count_eq_zero.mpr
      simp
    rw [hA, hB, hC, hD, count_range_eq]
    omega

/-- C2: the pipeline runs on all cache hits synchronously: the first three
trace events are the clear, the progress notification and the hits'
publication — before any fetch is issued; consequently the sequence of
published diagnostic sets starts with the empty clear and the hits'
diagnostics, and every later (miss-batch-derived) publication extends the
hits' diagnostics. -/
theorem hits_published_before_misses (env : CycleEnv) (order : List Nat)
    (deps : List Dep) (hc : env.collectResult = .ok deps) :
    (sendDiagnosticsTrace env order).take 3 =
      [Event.publish env.diagnosticFilePath [],
       Event.caNotification caDefaultMsg false env.diagnosticFilePath,
       Event.publish env.diagnosticFilePath (hitDiagsOf env deps)] ∧
    publishesOf (sendDiagnosticsTrace env order) =
      [] :: hitDiagsOf env deps :: missPublishesOf env order deps ∧
    (∀ l ∈ missPublishesOf env order deps, ∃ t, l = hitDiagsOf env deps ++ t) := by
  have hshape := sendDiagnosticsTrace_ok env order deps hc
  refine ⟨?_, ?_, ?_⟩
  · rw [hshape]
    rfl
  · rw [hshape]
    rw [publishesOf_append, publishesOf_append, publishesOf_append,
      publishesOf_map_fetch]
    show [[], hitDiagsOf env deps] ++ [] ++ missPublishesOf env order deps ++ [] = _
    simp
  · intro l hl
    exact processSettles_snd_publishes env order (hitsStateOf env deps) l hl

/-- A cycle environment whose collector rejects with a parse error. -/
def envParseError : CycleEnv :=
  ⟨"npm", "file:///bad/package.json",
   .error "SyntaxError: Unexpected token in JSON at position 0",
   fun _ => none, fun _ => .transportError,
   ⟨fun _ => [], fun _ => ⟨0, 0, 0⟩⟩⟩

/-- C3 counterexample: with a rejecting collector the cycle does change
the diagnostics — the empty set is published for the file at cycle start
(server.ts:260, before the collector runs), erasing any previously
published diagnostics; so "no diagnostics are changed" fails on this
concrete input. -/
theorem parse_error_changes_diagnostics :
    Event.publish "file:///bad/package.json" [] ∈ sendDiagnosticsTrace envParseError [] ∧
    publishesOf (sendDiagnosticsTrace envParseError []) ≠ [] := by
  constructor
  · show Event.publish "file:///bad/package.json" [] ∈
      [Event.publish "file:///bad/package.json" [],
       Event.caNotification caDefaultMsg false "file:///bad/package.json",
       Event.caError "SyntaxError: Unexpected token in JSON at position 0"
         "file:///bad/package.json"]
    exact List.mem_cons_self _ _
  · intro h
    simp [sendDiagnosticsTrace, envParseError, publishesOf] at h

/-- C3 amended: when the collector rejects, the cycle aborts after exactly
three events — the cycle-start clear of the published diagnostics to the
empty set, the progress notification, and the error notification carrying
the error and the file URI; no analysis-derived diagnostics are published
and no summary notification is emitted. -/
theorem parse_error_aborts (env : CycleEnv) (e : String) (order : List Nat)
    (hc : env.collectResult = .error e) :
    sendDiagnosticsTrace env order =
      [Event.publish env.diagnosticFilePath [],
       Event.caNotification caDefaultMsg false env.diagnosticFilePath,
       Event.caError e env.diagnosticFilePath] := by
  unfold sendDiagnosticsTrace
  rw [hc]

/-- Closed instance of `parse_error_aborts`. -/
theorem parse_error_aborts_witness :
    sendDiagnosticsTrace envParseError [0, 1] =
      [Event.publish "file:///bad/package.json" [],
       Event.caNotification caDefaultMsg false "file:///bad/package.json",
       Event.caError "SyntaxError: Unexpected token in JSON at position 0"
         "file:///bad/package.json"] :=
  parse_error_aborts envParseError
    "SyntaxError: Unexpected token in JSON at position 0" [0, 1] rfl

/-- A concrete dependency for the demonstration environment. -/
def demoDep (i : Nat) : Dep := sampleDep ("pkg" ++ toString i) "1.0.0"

/-- Twelve collected dependencies: one will be a cache hit, eleven will be
misses, giving two batches (10 + 1). -/
def demoDeps : List Dep := (List.range 12).map demoDep

/-- A concrete vulnerability record. -/
def demoRecord (p : String) : VulnRecord := ⟨p, "1.0.0", "CVE-2021-0001"⟩

/-- A concrete pipeline behaviour: one diagnostic and one known
vulnerability per record. -/
def demoPM : PipelineModel :=
  ⟨fun r => [⟨⟨1, 2⟩, "Dependency Analytics", r.package⟩], fun _ => ⟨1, 0, 0⟩⟩

/-- A concrete cycle environment: npm manifest, `pkg0` cached, batch 0
succeeds with one record, batch 1 fails in transport. -/
def envDemo : CycleEnv :=
  ⟨"npm", "file:///p/package.json", .ok demoDeps,
   fun d => if d.name.value = "pkg0" then some (demoRecord "pkg0") else none,
   fun i => if i = 0 then .ok [demoRecord "pkg1"] else .transportError,
   demoPM⟩

/-- Closed instance of `batch_failure_fail_open`: two batches, the second
settling first and failing, the first succeeding. -/
theorem batch_failure_fail_open_witness :
    (sendDiagnosticsTrace envDemo [1, 0]).getLast? = some (Event.caNotificationDone
        (getCAmsg demoDeps (finalStateOf envDemo [1, 0] demoDeps).diagnostics
          (finalStateOf envDemo [1, 0] demoDeps).totalCount)
        (finalStateOf envDemo [1, 0] demoDeps).diagnostics.length
        (finalStateOf envDemo [1, 0] demoDeps).totalCount demoDeps.length
        envDemo.diagnosticFilePath) ∧
    (finalStateOf envDemo [1, 0] demoDeps).diagnostics =
      hitDiagsOf envDemo demoDeps ++
        (successesOf envDemo [1, 0]).flatMap (fun rs => rs.flatMap envDemo.pm.diagsOf) ∧
    (finalStateOf envDemo [1, 0] demoDeps).totalCount =
      sumCounts envDemo.pm
        (successesOf envDemo (List.range (numBatches envDemo demoDeps))).flatten
        (sumCounts envDemo.pm (cachedValuesOf envDemo demoDeps) ⟨0, 0, 0⟩) ∧
    (∀ i, (sendDiagnosticsTrace envDemo [1, 0]).count (Event.fetch i) =
      if i < numBatches envDemo demoDeps then 1 else 0) :=
  batch_failure_fail_open envDemo [1, 0] demoDeps rfl (by decide)

/-- Closed instance of `hits_published_before_misses` on the same
environment. -/
theorem hits_published_before_misses_witness :
    (sendDiagnosticsTrace envDemo [1, 0]).take 3 =
      [Event.publish envDemo.diagnosticFilePath [],
       Event.caNotification caDefaultMsg false envDemo.diagnosticFilePath,
       Event.publish envDemo.diagnosticFilePath (hitDiagsOf envDemo demoDeps)] ∧
    publishesOf (sendDiagnosticsTrace envDemo [1, 0]) =
      [] :: hitDiagsOf envDemo demoDeps :: missPublishesOf envDemo [1, 0] demoDeps ∧
    (∀ l ∈ missPublishesOf envDemo [1, 0] demoDeps,
      ∃ t, l = hitDiagsOf envDemo demoDeps ++ t) :=
  hits_published_before_misses envDemo [1, 0] demoDeps rfl
